import Mathlib

/-
Verification of the joy2keymouse daemon (src/joy2keymouse.c) against its
design specification.  The C program is shallowly embedded below: every
definition mirrors a specific piece of the source, with the source lines
noted in its doc comment.  Machine integers are modelled as unbounded `Int`
(the program's arithmetic stays far from the 64-bit boundaries for the
device-reported value ranges), C truncating division is `Int.tdiv`, and the
`double` computation in the acceleration formula is modelled exactly over
`ℚ` with truncation toward zero at each narrowing cast.
-/

namespace Joy2KeyMouse

/-! ### Linux input event codes used by the program -/

/-- input-event-codes.h: KEY_TAB. -/
def KEY_TAB : Nat := 15
/-- input-event-codes.h: KEY_A. -/
def KEY_A : Nat := 30
/-- input-event-codes.h: KEY_LEFTMETA. -/
def KEY_LEFTMETA : Nat := 125
/-- input-event-codes.h: KEY_LEFTSHIFT. -/
def KEY_LEFTSHIFT : Nat := 42
/-- input-event-codes.h: KEY_LEFTCTRL. -/
def KEY_LEFTCTRL : Nat := 29
/-- input-event-codes.h: KEY_LEFTALT. -/
def KEY_LEFTALT : Nat := 56
/-- input-event-codes.h: KEY_ENTER. -/
def KEY_ENTER : Nat := 28
/-- input-event-codes.h: KEY_LEFT. -/
def KEY_LEFT : Nat := 105
/-- input-event-codes.h: KEY_RIGHT. -/
def KEY_RIGHT : Nat := 106
/-- input-event-codes.h: KEY_UP. -/
def KEY_UP : Nat := 103
/-- input-event-codes.h: KEY_DOWN. -/
def KEY_DOWN : Nat := 108
/-- input-event-codes.h: BTN_LEFT. -/
def BTN_LEFT : Nat := 272
/-- input-event-codes.h: BTN_RIGHT. -/
def BTN_RIGHT : Nat := 273
/-- input-event-codes.h: BTN_SIDE. -/
def BTN_SIDE : Nat := 275
/-- input-event-codes.h: BTN_EXTRA. -/
def BTN_EXTRA : Nat := 276
/-- input-event-codes.h: BTN_SOUTH (= BTN_A). -/
def BTN_SOUTH : Nat := 304
/-- input-event-codes.h: BTN_EAST. -/
def BTN_EAST : Nat := 305
/-- input-event-codes.h: BTN_NORTH. -/
def BTN_NORTH : Nat := 307
/-- input-event-codes.h: BTN_WEST. -/
def BTN_WEST : Nat := 308
/-- input-event-codes.h: BTN_TL. -/
def BTN_TL : Nat := 310
/-- input-event-codes.h: BTN_TR. -/
def BTN_TR : Nat := 311
/-- input-event-codes.h: BTN_SELECT. -/
def BTN_SELECT : Nat := 314
/-- input-event-codes.h: BTN_START. -/
def BTN_START : Nat := 315
/-- input-event-codes.h: BTN_THUMBL. -/
def BTN_THUMBL : Nat := 317
/-- input-event-codes.h: BTN_THUMBR. -/
def BTN_THUMBR : Nat := 318
/-- input-event-codes.h: BTN_DPAD_UP. -/
def BTN_DPAD_UP : Nat := 544
/-- input-event-codes.h: BTN_DPAD_DOWN. -/
def BTN_DPAD_DOWN : Nat := 545
/-- input-event-codes.h: BTN_DPAD_LEFT. -/
def BTN_DPAD_LEFT : Nat := 546
/-- input-event-codes.h: BTN_DPAD_RIGHT. -/
def BTN_DPAD_RIGHT : Nat := 547
/-- input-event-codes.h: REL_WHEEL_HI_RES. -/
def REL_WHEEL_HI_RES : Nat := 11
/-- input-event-codes.h: REL_HWHEEL_HI_RES. -/
def REL_HWHEEL_HI_RES : Nat := 12

/-- One event written to the virtual output device
(`libevdev_uinput_write_event` calls in main).  `key c v` is an
`EV_KEY` write with code `c` and value `v`; `rel c v` is an `EV_REL`
write; `syn` is the `EV_SYN, SYN_REPORT, 0` batch-boundary marker. -/
inductive OutEv where
  | key (code : Nat) (value : Int)
  | rel (code : Nat) (value : Int)
  | syn
deriving DecidableEq, Repr

/-- Number of `syn` batch-boundary markers in an output stream. -/
def countSyn (evs : List OutEv) : Nat :=
  evs.countP fun e => match e with | .syn => true | _ => false

/-- Number of `key` events in an output stream. -/
def countKey (evs : List OutEv) : Nat :=
  evs.countP fun e => match e with | .key _ _ => true | _ => false

/-- Number of `rel` (relative-axis) events in an output stream. -/
def countRel (evs : List OutEv) : Nat :=
  evs.countP fun e => match e with | .rel _ _ => true | _ => false

/-! ### DeviceLocator: find_gamepad (src/joy2keymouse.c lines 27-54) -/

/-- What the environment reports about the candidate device file
`/dev/input/event<i>`: whether `open` succeeds (line 32-34), whether
`libevdev_new_from_fd` succeeds (line 37-38), and the declared capability
bits queried on lines 40-45. -/
structure Candidate where
  openOk : Bool
  initOk : Bool
  hasAbs : Bool
  hasX : Bool
  hasY : Bool
  hasRX : Bool
  hasRY : Bool
  hasBtnA : Bool
deriving DecidableEq, Repr

/-- The capability test of lines 40-45: EV_ABS type plus the four
absolute-axis codes ABS_X, ABS_Y, ABS_RX, ABS_RY plus the BTN_A key. -/
def qualifies (c : Candidate) : Bool :=
  c.hasAbs && c.hasX && c.hasY && c.hasRX && c.hasRY && c.hasBtnA

/-- The loop body of `find_gamepad`, lines 28-51, unrolled on remaining
fuel (the loop runs `i = 0, …, 31`, so `find_gamepad` starts it with fuel
32).  `if (fd < 0) break;` on line 33-34 terminates the whole scan, which
is why an open failure returns `none` instead of recursing; an
`libevdev_new_from_fd` failure (line 37-38) and a failed capability test
close the candidate and continue with the next index. -/
def find_gamepad_aux (ns : Nat → Candidate) : Nat → Nat → Option Nat
  | _, 0 => none
  | i, fuel + 1 =>
    if (ns i).openOk = false then none
    else if (ns i).initOk = false then find_gamepad_aux ns (i + 1) fuel
    else if qualifies (ns i) then some i
    else find_gamepad_aux ns (i + 1) fuel

/-- `find_gamepad` (lines 27-54): scan `/dev/input/event0 … event31` in
order and return the index of the accepted device, or `none`.  `ns` is the
state of the device namespace. -/
def find_gamepad (ns : Nat → Candidate) : Option Nat :=
  find_gamepad_aux ns 0 32

/-! ### Orchestrator: top-level control flow of main (lines 116-354) -/

/-- Phase of the top-level loop of `main`: `searching` is the
`find_gamepad()` call at line 121, `active` is the session loop at lines
139-323, `waitHotplug` is the inotify wait loop at lines 331-353,
`terminated` is the `outer:` exit path at line 356. -/
inductive Phase where
  | searching
  | active
  | waitHotplug
  | terminated
deriving DecidableEq, Repr

/-- How the session loop (lines 139-323) ends: `disconnected` is the
`rc == -ENODEV` break at lines 159-161, `sigquit` is the signalfd break at
lines 148-152 (which sets `quit = true`). -/
inductive SessionOutcome where
  | disconnected
  | sigquit
deriving DecidableEq, Repr

/-- How the hotplug wait loop (lines 331-353) ends: `created` is the
inotify drain-and-break at lines 342-352, `sigquit` is the signalfd
`goto outer` at lines 337-340. -/
inductive HotplugOutcome where
  | created
  | sigquit
deriving DecidableEq, Repr

/-- Environment choices resolving the nondeterminism of one orchestrator
step: whether `find_gamepad` finds a device, how a session ends, how a
hotplug wait ends. -/
structure OrchEnv where
  found : Bool
  session : SessionOutcome
  hotplug : HotplugOutcome
deriving DecidableEq, Repr

/-- One step of the top-level control flow of `main`, returning the next
phase and whether the SourceDevice was released (`libevdev_free` +
`close(gamepad_fd)`, lines 325-326) during the step.

Faithful to the C control flow:
* `searching`: line 121-123 — a null result jumps to `wait_hotplug`, a
  device enters the session loop.
* `active`: the session loop exits either via the signal branch
  (`quit = true`, so `if (quit) break;` at line 327-328 leaves the outer
  loop → `terminated`) or via the `-ENODEV` branch (`quit` stays false and
  control **falls through the `wait_hotplug:` label at line 329 into the
  inotify wait loop** → `waitHotplug`).  In both cases lines 325-326 have
  released the device first.
* `waitHotplug`: the signal branch does `goto outer` (→ `terminated`); the
  inotify branch breaks back to the top of the outer `for` loop, whose
  first action is `find_gamepad()` (→ `searching`). -/
def orchStep : Phase → OrchEnv → Phase × Bool
  | .searching, env => if env.found then (.active, false) else (.waitHotplug, false)
  | .active, env =>
    match env.session with
    | .sigquit => (.terminated, true)
    | .disconnected => (.waitHotplug, true)
  | .waitHotplug, env =>
    match env.hotplug with
    | .sigquit => (.terminated, false)
    | .created => (.searching, false)
  | .terminated, _ => (.terminated, false)

/-! ### EdgeKeyMapper: directional-pad handling (lines 192-217) -/

/-- Which output key a hat-axis value selects: `hat0x < 0 ? KEY_LEFT :
KEY_RIGHT` (lines 195, 201) resp. `hat0y < 0 ? KEY_UP : KEY_DOWN`
(lines 208, 214). -/
def hatKey (negKey posKey : Nat) (h : Int) : Nat :=
  if h < 0 then negKey else posKey

/-- One `ABS_HAT0X`/`ABS_HAT0Y` event (lines 192-204 resp. 205-217):
if the stored hat value is non-zero and differs from the event value,
write a key-up for the key of the *old* sign followed by a SYN_REPORT;
then store the event value; if it is non-zero, write a key-down for the
key of the *new* sign followed by another SYN_REPORT.  Returns the new
stored hat value and the emitted output events in order. -/
def hatStep (negKey posKey : Nat) (hat v : Int) : Int × List OutEv :=
  let pre : List OutEv :=
    if hat ≠ 0 ∧ hat ≠ v then [.key (hatKey negKey posKey hat) 0, .syn] else []
  let post : List OutEv :=
    if v ≠ 0 then [.key (hatKey negKey posKey v) 1, .syn] else []
  (v, pre ++ post)

/-- Feed a sequence of hat-axis event values through `hatStep`, starting
from stored value `hat` (initialised to 0 at session start, line 128),
collecting all output events. -/
def runHat (negKey posKey : Nat) : Int → List Int → List OutEv
  | _, [] => []
  | hat, v :: vs =>
    (hatStep negKey posKey hat v).2 ++ runHat negKey posKey (hatStep negKey posKey hat v).1 vs

/-- Track the down/up state of key `k` through an output stream: a
`key k v` event sets the state to `v ≠ 0`. -/
def trackKey (k : Nat) (st : Bool) (e : OutEv) : Bool :=
  match e with
  | .key c v => if c = k then decide (v ≠ 0) else st
  | _ => st

/-- `true` iff at no point of the output stream both key `a` and key `b`
are simultaneously in the down state (checked after every event, starting
from states `sa`, `sb`). -/
def neverBothDown (a b : Nat) (sa sb : Bool) : List OutEv → Bool
  | [] => true
  | e :: es =>
    let sa1 := trackKey a sa e
    let sb1 := trackKey b sb e
    !(sa1 && sb1) && neverBothDown a b sa1 sb1 es

/-! ### HysteresisLatch: analog triggers (lines 218-241) -/

/-- `z_down_threshold` (line 136). -/
def z_down_threshold : Int := 512

/-- `z_up_threshold` (line 136). -/
def z_up_threshold : Int := 256

/-- One `ABS_Z`/`ABS_RZ` event (lines 218-229 resp. 230-241) for the
latch of modifier key `key` (KEY_LEFTCTRL resp. KEY_LEFTSHIFT): two
sequential `if`s exactly as in the source — if the value exceeds
`z_down_threshold` and the latch is clear, write key-down and SYN and set
it; then, if the value is below `z_up_threshold` and the latch is set,
write key-up and SYN and clear it.  Returns the new latch state and the
emitted events. -/
def latchStep (key : Nat) (lz : Bool) (v : Int) : Bool × List OutEv :=
  let s1 : Bool × List OutEv :=
    if v > z_down_threshold ∧ lz = false then (true, [.key key 1, .syn]) else (lz, [])
  if v < z_up_threshold ∧ s1.1 = true then (false, s1.2 ++ [.key key 0, .syn]) else s1

/-- Feed a sequence of trigger magnitudes through `latchStep`, starting
from latch state `lz` (initialised to `false` at session start, line 129),
collecting all output events. -/
def runLatch (key : Nat) : Bool → List Int → Bool × List OutEv
  | lz, [] => (lz, [])
  | lz, v :: vs =>
    ((runLatch key (latchStep key lz v).1 vs).1,
      (latchStep key lz v).2 ++ (runLatch key (latchStep key lz v).1 vs).2)

/-! ### ButtonRouter: EV_KEY handling (lines 245-294) -/

/-- The static routing table of the `switch (ev.code)` at lines 246-292:
the list of output key codes written for one input button code, in source
order.  Unlisted codes fall through the switch and map to nothing. -/
def route (code : Nat) : List Nat :=
  if code = BTN_SOUTH then [BTN_LEFT]
  else if code = BTN_EAST then [BTN_RIGHT]
  else if code = BTN_SELECT then [KEY_LEFTMETA]
  else if code = BTN_START then [KEY_LEFTMETA, KEY_A]
  else if code = BTN_TR then [KEY_TAB]
  else if code = BTN_TL then [KEY_LEFTSHIFT, KEY_TAB]
  else if code = BTN_DPAD_UP then [KEY_UP]
  else if code = BTN_DPAD_DOWN then [KEY_DOWN]
  else if code = BTN_DPAD_LEFT then [KEY_LEFT]
  else if code = BTN_DPAD_RIGHT then [KEY_RIGHT]
  else if code = BTN_WEST then [BTN_EXTRA]
  else if code = BTN_NORTH then [BTN_SIDE]
  else if code = BTN_THUMBL then [KEY_LEFTALT]
  else if code = BTN_THUMBR then [KEY_ENTER]
  else []

/-- Handling of one `EV_KEY` input event (lines 245-294): each routed
output key is written with the input event's own value, and then — outside
the inner switch, so unconditionally — exactly one SYN_REPORT is written
(line 293). -/
def buttonStep (code : Nat) (value : Int) : List OutEv :=
  ((route code).map fun k => OutEv.key k value) ++ [.syn]

/-! ### Scroll emission (lines 310-322) -/

/-- The per-iteration scroll emission (lines 316-322): if either computed
scroll delta is non-zero, write exactly one relative-axis event — the
high-resolution horizontal wheel with value `-srx` when `|srx| > |sry|`,
otherwise the high-resolution vertical wheel with value `sry` — followed
by one SYN_REPORT. -/
def scrollEmit (srx sry : Int) : List OutEv :=
  if srx ≠ 0 ∨ sry ≠ 0 then
    (if |srx| > |sry| then [.rel REL_HWHEEL_HI_RES (-srx)]
     else [.rel REL_WHEEL_HI_RES sry]) ++ [.syn]
  else []

/-! ### AxisAccelerator (lines 130-135 and 298-315) -/

/-- Truncation of a rational toward zero, the behaviour of C's
`(int64_t)` cast applied to a `double`. -/
def qtrunc (q : ℚ) : Int :=
  if 0 ≤ q then ⌊q⌋ else -⌊-q⌋

/-- The acceleration formula shared by the four `slx`/`sly`/`srx`/`sry`
assignments (lines 298-303 and 310-315):

`(int)((int64_t)(pow(base, (double)((abs(v) - sub) / div1)) * v) * dt / div2 * mul)`

C's integer `/` truncates toward zero (`Int.tdiv`); the `double`
computation `pow(base, e) * v` is modelled exactly over `ℚ` (`base ^ e`
with `e : ℤ`), and its `(int64_t)` cast is truncation toward zero
(`qtrunc`).  The final `(int)` cast is the identity for the value ranges
the device reports. -/
def axisAccel (base : ℚ) (div1 sub div2 mul : Int) (v dt : Int) : Int :=
  (qtrunc (base ^ Int.tdiv (|v| - sub) div1 * (v : ℚ))* dt).tdiv div2 * mul

/-- The movement-stick instance: constants `lbase = 1.01`, `ldiv1 = 2^9`,
`lsub = 2^13`, `ldiv2 = 2^36`, `lmul = 1` (lines 130-132). -/
def laccel (v dt : Int) : Int :=
  axisAccel (101 / 100) (2 ^ 9) (2 ^ 13) (2 ^ 36) 1 v dt

/-- The scroll-stick instance: constants `rbase = 1.01`, `rdiv1 = 2^9`,
`rsub = 2^13`, `rdiv2 = 2^36`, `rmul = 2` (lines 133-135). -/
def raccel (v dt : Int) : Int :=
  axisAccel (101 / 100) (2 ^ 9) (2 ^ 13) (2 ^ 36) 2 v dt

/-! ### Claim C1: orchestrator transition after a disconnect -/

/-- C1 counterexample: the claim says that after a session ends with
outcome DISCONNECTED the very next state is SEARCHING with no intervening
WAIT_HOTPLUG.  In the code, the `-ENODEV` break leaves `quit == false`, so
after releasing the device control falls through the `wait_hotplug:` label
(line 329) into the inotify wait loop: the next state is WAIT_HOTPLUG, not
SEARCHING. -/
theorem orch_disconnected_counterexample :
    (orchStep .active ⟨true, .disconnected, .created⟩).1 = .waitHotplug ∧
    (orchStep .active ⟨true, .disconnected, .created⟩).1 ≠ .searching := by
  decide

/-- C1 amended: whenever a TranslationSession ends DISCONNECTED, the
SourceDevice is released and the very next state is WAIT_HOTPLUG; the
orchestrator re-enters SEARCHING only after the hotplug watcher reports a
device-file creation event. -/
theorem orch_disconnected_next (env : OrchEnv) (h : env.session = .disconnected) :
    orchStep .active env = (.waitHotplug, true) ∧
    (∀ env2 : OrchEnv, env2.hotplug = .created →
      orchStep .waitHotplug env2 = (.searching, false)) := by
  constructor
  · cases env with
    | mk f s hp => cases h; rfl
  · intro env2 h2
    cases env2 with
    | mk f s hp => cases h2; rfl

/-- Concrete instantiation of `orch_disconnected_next`. -/
theorem orch_disconnected_next_witness :
    orchStep .active ⟨true, .disconnected, .created⟩ = (.waitHotplug, true) ∧
    orchStep .waitHotplug ⟨true, .disconnected, .created⟩ = (.searching, false) :=
  ⟨(orch_disconnected_next ⟨true, .disconnected, .created⟩ rfl).1,
   (orch_disconnected_next ⟨true, .disconnected, .created⟩ rfl).2
     ⟨true, .disconnected, .created⟩ rfl⟩

/-! ### Claim C2: DeviceLocator scan behaviour -/

/-- The scan from index `i` with enough fuel finds `k` when every
candidate up to `k` opens, no earlier opened candidate qualifies, and `k`
initialises and qualifies. -/
theorem find_gamepad_aux_some (ns : Nat → Candidate) (fuel : Nat) :
    ∀ i k : Nat, i ≤ k → k < i + fuel →
    (∀ j, i ≤ j → j ≤ k → (ns j).openOk = true) →
    (∀ j, i ≤ j → j < k → (ns j).initOk = true → qualifies (ns j) = false) →
    (ns k).initOk = true → qualifies (ns k) = true →
    find_gamepad_aux ns i fuel = some k := by
  induction fuel with
  | zero => intro i k hik hlt _ _ _ _; omega
  | succ fuel ih =>
    intro i k hik hlt hopen hskip hinit hqual
    unfold find_gamepad_aux
    have hio : (ns i).openOk = true := hopen i le_rfl hik
    rw [hio]
    simp only [Bool.true_eq_false, if_false]
    rcases eq_or_lt_of_le hik with heq | hik'
    · subst heq
      rw [hinit, hqual]
      simp
    · by_cases hii : (ns i).initOk = true
      · have hq : qualifies (ns i) = false := hskip i le_rfl hik' hii
        rw [hii, hq]
        simp only [Bool.true_eq_false, if_false, Bool.false_eq_true]
        exact ih (i + 1) k hik' (by omega) (fun j h1 h2 => hopen j (by omega) h2)
          (fun j h1 h2 => hskip j (by omega) h2) hinit hqual
      · rw [Bool.not_eq_true] at hii
        rw [hii]
        simp only [if_true]
        exact ih (i + 1) k hik' (by omega) (fun j h1 h2 => hopen j (by omega) h2)
          (fun j h1 h2 => hskip j (by omega) h2) hinit hqual

/-- The scan from index `i` returns `none` when some candidate `j` in
range fails to open and no earlier opened candidate qualifies: the
`break` on open failure abandons everything at and beyond `j`. -/
theorem find_gamepad_aux_none (ns : Nat → Candidate) (fuel : Nat) :
    ∀ i j : Nat, i ≤ j → j < i + fuel →
    (ns j).openOk = false →
    (∀ l, i ≤ l → l < j → (ns l).initOk = true → qualifies (ns l) = false) →
    find_gamepad_aux ns i fuel = none := by
  induction fuel with
  | zero => intro i j hij hlt _ _; omega
  | succ fuel ih =>
    intro i j hij hlt hfail hskip
    unfold find_gamepad_aux
    by_cases hio : (ns i).openOk = false
    · rw [hio]; simp
    · rw [Bool.not_eq_false] at hio
      rw [hio]
      simp only [Bool.true_eq_false, if_false]
      have hij' : i < j := by
        rcases eq_or_lt_of_le hij with heq | h
        · subst heq; rw [hio] at hfail; cases hfail
        · exact h
      by_cases hii : (ns i).initOk = true
      · have hq : qualifies (ns i) = false := hskip i le_rfl hij' hii
        rw [hii, hq]
        simp only [Bool.true_eq_false, if_false, Bool.false_eq_true]
        exact ih (i + 1) j hij' (by omega) hfail
          (fun l h1 h2 => hskip l (by omega) h2)
      · rw [Bool.not_eq_true] at hii
        rw [hii]
        simp only [if_true]
        exact ih (i + 1) j hij' (by omega) hfail
          (fun l h1 h2 => hskip l (by omega) h2)

/-- C2 counterexample: the claim says a candidate that fails to open is
closed and skipped, so an unopenable earlier candidate never prevents a
later qualifying device from being found.  In `find_gamepad` the open
failure executes `break` (line 33-34): with `event0` unopenable and
`event1` fully qualifying, the scan returns nothing. -/
theorem find_gamepad_counterexample :
    (fun ns : Nat → Candidate =>
        find_gamepad ns = none ∧ (ns 0).openOk = false ∧
        (ns 1).openOk = true ∧ (ns 1).initOk = true ∧ qualifies (ns 1) = true)
      (fun i => if i = 1 then ⟨true, true, true, true, true, true, true, true⟩
                else ⟨false, false, false, false, false, false, false, false⟩) := by
  decide

/-- C2 amended: `find_gamepad` enumerates `event0 … event31` in order and
returns the first candidate that opens, initialises and declares the four
absolute-axis codes plus the reference button; a candidate that opens but
does not qualify (or fails libevdev initialisation) is closed and skipped;
but a candidate that fails to *open* terminates the enumeration, so the
scan reports not-found even when a later device qualifies. -/
theorem find_gamepad_spec :
    (∀ (ns : Nat → Candidate) (k : Nat), k < 32 →
      (∀ j, j ≤ k → (ns j).openOk = true) →
      (∀ j, j < k → (ns j).initOk = true → qualifies (ns j) = false) →
      (ns k).initOk = true → qualifies (ns k) = true →
      find_gamepad ns = some k) ∧
    (∀ (ns : Nat → Candidate) (j : Nat), j < 32 →
      (ns j).openOk = false →
      (∀ l, l < j → (ns l).initOk = true → qualifies (ns l) = false) →
      find_gamepad ns = none) := by
  constructor
  · intro ns k hk hopen hskip hinit hqual
    exact find_gamepad_aux_some ns 32 0 k (Nat.zero_le k) (by omega)
      (fun j _ h2 => hopen j h2) (fun j _ h2 => hskip j h2) hinit hqual
  · intro ns j hj hfail hskip
    exact find_gamepad_aux_none ns 32 0 j (Nat.zero_le j) (by omega) hfail
      (fun l _ h2 => hskip l h2)

/-- Concrete instantiation of `find_gamepad_spec`: a namespace where the
first three candidates open but do not qualify and the fourth qualifies,
and a namespace where the first candidate is unopenable. -/
theorem find_gamepad_spec_witness :
    find_gamepad (fun i => if i = 3 then ⟨true, true, true, true, true, true, true, true⟩
      else ⟨true, true, false, false, false, false, false, false⟩) = some 3 ∧
    find_gamepad (fun i => if i = 1 then ⟨true, true, true, true, true, true, true, true⟩
      else ⟨false, false, false, false, false, false, false, false⟩) = none :=
  ⟨find_gamepad_spec.1
      (fun i => if i = 3 then ⟨true, true, true, true, true, true, true, true⟩
        else ⟨true, true, false, false, false, false, false, false⟩) 3 (by decide)
      (fun j hj => by interval_cases j <;> decide)
      (fun j hj => by interval_cases j <;> decide)
      (by decide) (by decide),
   find_gamepad_spec.2
      (fun i => if i = 1 then ⟨true, true, true, true, true, true, true, true⟩
        else ⟨false, false, false, false, false, false, false, false⟩) 0 (by decide)
      (by decide) (fun l hl => by omega)⟩

/-! ### Claim C3: EdgeKeyMapper on the sequence [0, -1, +1, 0] -/

/-- C3 counterexample: the claim requires the key-up and key-down of a
direct negative-to-positive transition to share one output batch (a single
batch-boundary marker after both).  The code flushes a SYN_REPORT after
the key-up (line 196) and another after the key-down (line 202), so the
actual stream has a marker between them and differs from the claimed
stream. -/
theorem hat_batch_counterexample :
    runHat KEY_LEFT KEY_RIGHT 0 [0, -1, 1, 0] =
      [.key KEY_LEFT 1, .syn, .key KEY_LEFT 0, .syn,
       .key KEY_RIGHT 1, .syn, .key KEY_RIGHT 0, .syn] ∧
    runHat KEY_LEFT KEY_RIGHT 0 [0, -1, 1, 0] ≠
      [.key KEY_LEFT 1, .syn, .key KEY_LEFT 0,
       .key KEY_RIGHT 1, .syn, .key KEY_RIGHT 0, .syn] := by
  decide

/-- C3 amended: feeding the horizontal-hat mapper the value sequence
[0, −1, +1, 0] emits exactly down(KEY_LEFT); up(KEY_LEFT);
down(KEY_RIGHT); up(KEY_RIGHT), in that order, each key event immediately
followed by its own batch-boundary marker (so the up-then-down pair of the
negative-to-positive transition occupies two adjacent batches, the up
flushed before the down is written), and at no point are both keys of the
axis simultaneously in the down state. -/
theorem hat_sequence :
    runHat KEY_LEFT KEY_RIGHT 0 [0, -1, 1, 0] =
      [.key KEY_LEFT 1, .syn, .key KEY_LEFT 0, .syn,
       .key KEY_RIGHT 1, .syn, .key KEY_RIGHT 0, .syn] ∧
    countSyn (runHat KEY_LEFT KEY_RIGHT 0 [0, -1, 1, 0]) = 4 ∧
    neverBothDown KEY_LEFT KEY_RIGHT false false
      (runHat KEY_LEFT KEY_RIGHT 0 [0, -1, 1, 0]) = true := by
  decide

/-! ### Claim C4: scroll-axis exclusivity -/

/-- C4: on every iteration where at least one recomputed scroll delta is
non-zero, exactly one relative-axis event is emitted — the horizontal
wheel when the horizontal magnitude strictly exceeds the vertical one,
otherwise the vertical wheel (so a tie favors vertical) — and the losing
axis is suppressed; one batch marker follows. -/
theorem scroll_exclusivity (srx sry : Int) (h : srx ≠ 0 ∨ sry ≠ 0) :
    countRel (scrollEmit srx sry) = 1 ∧ countSyn (scrollEmit srx sry) = 1 ∧
    (|srx| > |sry| → scrollEmit srx sry = [.rel REL_HWHEEL_HI_RES (-srx), .syn]) ∧
    (|srx| ≤ |sry| → scrollEmit srx sry = [.rel REL_WHEEL_HI_RES sry, .syn]) := by
  unfold scrollEmit
  rw [if_pos h]
  by_cases hc : |srx| > |sry|
  · rw [if_pos hc]
    exact ⟨rfl, rfl, fun _ => rfl, fun hle => absurd hc (not_lt.mpr hle)⟩
  · rw [if_neg hc]
    exact ⟨rfl, rfl, fun hgt => absurd hgt hc, fun _ => rfl⟩

/-- Concrete instantiation of `scroll_exclusivity` at the magnitude tie
(2, 2): one axis event, and it is the vertical wheel. -/
theorem scroll_exclusivity_witness :
    countRel (scrollEmit 2 2) = 1 ∧
    scrollEmit 2 2 = [.rel REL_WHEEL_HI_RES 2, .syn] :=
  ⟨(scroll_exclusivity 2 2 (Or.inl (by decide))).1,
   (scroll_exclusivity 2 2 (Or.inl (by decide))).2.2.2 (by decide)⟩

/-! ### Claim C10: sign of the emitted scroll values -/

/-- C10: when the horizontal axis wins the exclusivity choice the emitted
horizontal-wheel event carries the negated delta `-srx`; a winning
vertical delta is emitted unchanged as `sry`. -/
theorem scroll_value_signs (srx sry : Int) (h : srx ≠ 0 ∨ sry ≠ 0) :
    (|srx| > |sry| → scrollEmit srx sry = [.rel REL_HWHEEL_HI_RES (-srx), .syn]) ∧
    (¬|srx| > |sry| → scrollEmit srx sry = [.rel REL_WHEEL_HI_RES sry, .syn]) := by
  unfold scrollEmit
  rw [if_pos h]
  by_cases hc : |srx| > |sry|
  · rw [if_pos hc]
    exact ⟨fun _ => rfl, fun hn => absurd hc hn⟩
  · rw [if_neg hc]
    exact ⟨fun hgt => absurd hgt hc, fun _ => rfl⟩

/-- Concrete instantiation of `scroll_value_signs`: (3, 1) emits the
horizontal wheel with value −3; (1, 3) emits the vertical wheel with
value 3. -/
theorem scroll_value_signs_witness :
    scrollEmit 3 1 = [.rel REL_HWHEEL_HI_RES (-3), .syn] ∧
    scrollEmit 1 3 = [.rel REL_WHEEL_HI_RES 3, .syn] :=
  ⟨(scroll_value_signs 3 1 (Or.inl (by decide))).1 (by decide),
   (scroll_value_signs 1 3 (Or.inl (by decide))).2 (by decide)⟩

/-! ### Claim C5: hysteresis latch invariants -/

/-- A magnitude not exceeding the press threshold leaves the released
latch released and emits nothing. -/
theorem latchStep_low (key : Nat) (v : Int) (h : v ≤ z_down_threshold) :
    latchStep key false v = (false, []) := by
  unfold latchStep
  have h1 : ¬(v > z_down_threshold ∧ (false : Bool) = false) :=
    fun hc => absurd hc.1 (not_lt.mpr h)
  rw [if_neg h1]
  have h2 : ¬(v < z_up_threshold ∧
      ((false, ([] : List OutEv)) : Bool × List OutEv).1 = true) :=
    fun hc => absurd hc.2 (by decide)
  rw [if_neg h2]

/-- A magnitude above the press threshold presses the released latch and
emits key-down plus one batch marker. -/
theorem latchStep_press (key : Nat) (v : Int) (h : v > z_down_threshold) :
    latchStep key false v = (true, [.key key 1, .syn]) := by
  unfold latchStep
  have h1 : v > z_down_threshold ∧ (false : Bool) = false := ⟨h, rfl⟩
  rw [if_pos h1]
  have h2 : ¬(v < z_up_threshold ∧
      ((true, [OutEv.key key 1, OutEv.syn]) : Bool × List OutEv).1 = true) := by
    intro hc
    obtain ⟨hlt, _⟩ := hc
    have hz : z_up_threshold < z_down_threshold := by decide
    omega
  rw [if_neg h2]

/-- A magnitude of at least the release threshold leaves the pressed
latch pressed and emits nothing. -/
theorem latchStep_band (key : Nat) (v : Int) (h : z_up_threshold ≤ v) :
    latchStep key true v = (true, []) := by
  unfold latchStep
  have h1 : ¬(v > z_down_threshold ∧ (true : Bool) = false) :=
    fun hc => absurd hc.2 (by decide)
  rw [if_neg h1]
  have h2 : ¬(v < z_up_threshold ∧
      ((true, ([] : List OutEv)) : Bool × List OutEv).1 = true) :=
    fun hc => absurd hc.1 (not_lt.mpr h)
  rw [if_neg h2]

/-- A magnitude below the release threshold releases the pressed latch
and emits key-up plus one batch marker. -/
theorem latchStep_release (key : Nat) (v : Int) (h : v < z_up_threshold) :
    latchStep key true v = (false, [.key key 0, .syn]) := by
  unfold latchStep
  have h1 : ¬(v > z_down_threshold ∧ (true : Bool) = false) :=
    fun hc => absurd hc.2 (by decide)
  rw [if_neg h1]
  have h2 : v < z_up_threshold ∧
      ((true, ([] : List OutEv)) : Bool × List OutEv).1 = true := ⟨h, rfl⟩
  rw [if_pos h2]
  rfl

/-- C5: the two thresholds are in the strict order required for
hysteresis; starting released, a magnitude sequence never exceeding the
press threshold leaves the latch released throughout and emits no events;
starting pressed, a sequence staying in the inclusive band between the
release and press thresholds leaves the latch pressed throughout and
emits no events; a pressed latch returns to released only on a magnitude
strictly below the release threshold; and every state transition emits
exactly one key-down resp. key-up for the mapped modifier key followed by
one batch marker, while a non-transition emits nothing. -/
theorem hysteresis_latch (key : Nat) :
    z_up_threshold < z_down_threshold ∧
    (∀ seq : List Int, (∀ v ∈ seq, v ≤ z_down_threshold) →
      runLatch key false seq = (false, [])) ∧
    (∀ seq : List Int, (∀ v ∈ seq, z_up_threshold ≤ v ∧ v ≤ z_down_threshold) →
      runLatch key true seq = (true, [])) ∧
    (∀ v : Int, (latchStep key true v).1 = false → v < z_up_threshold) ∧
    (∀ (lz : Bool) (v : Int),
      ((latchStep key lz v).1 ≠ lz →
        (latchStep key lz v).2 =
          [.key key (if (latchStep key lz v).1 then 1 else 0), .syn]) ∧
      ((latchStep key lz v).1 = lz → (latchStep key lz v).2 = [])) := by
  refine ⟨by decide, ?_, ?_, ?_, ?_⟩
  · intro seq hseq
    induction seq with
    | nil => rfl
    | cons v vs ih =>
      have hv := hseq v (List.mem_cons_self v vs)
      have ih2 := ih fun w hw => hseq w (List.mem_cons_of_mem v hw)
      unfold runLatch
      rw [latchStep_low key v hv, ih2]
      rfl
  · intro seq hseq
    induction seq with
    | nil => rfl
    | cons v vs ih =>
      have hv := (hseq v (List.mem_cons_self v vs)).1
      have ih2 := ih fun w hw => hseq w (List.mem_cons_of_mem v hw)
      unfold runLatch
      rw [latchStep_band key v hv, ih2]
      rfl
  · intro v hv
    by_cases h2 : v < z_up_threshold
    · exact h2
    · rw [latchStep_band key v (not_lt.mp h2)] at hv
      cases hv
  · intro lz v
    cases lz with
    | false =>
      by_cases h1 : v > z_down_threshold
      · rw [latchStep_press key v h1]
        exact ⟨fun _ => rfl, fun h => by cases h⟩
      · rw [latchStep_low key v (not_lt.mp h1)]
        exact ⟨fun h => absurd rfl h, fun _ => rfl⟩
    | true =>
      by_cases h2 : v < z_up_threshold
      · rw [latchStep_release key v h2]
        exact ⟨fun _ => rfl, fun h => by cases h⟩
      · rw [latchStep_band key v (not_lt.mp h2)]
        exact ⟨fun h => absurd rfl h, fun _ => rfl⟩

/-- Concrete instantiation of `hysteresis_latch` for the left-trigger
latch (KEY_LEFTCTRL): a low sequence never presses, a band sequence stays
pressed, a release implies the value was below 256, and the press
transition at magnitude 600 emits key-down plus one batch marker. -/
theorem hysteresis_latch_witness :
    runLatch KEY_LEFTCTRL false [100, 512, 0] = (false, []) ∧
    runLatch KEY_LEFTCTRL true [256, 512, 300] = (true, []) ∧
    (100 : Int) < z_up_threshold ∧
    (latchStep KEY_LEFTCTRL false 600).2 =
      [.key KEY_LEFTCTRL (if (latchStep KEY_LEFTCTRL false 600).1 then 1 else 0), .syn] :=
  ⟨(hysteresis_latch KEY_LEFTCTRL).2.1 [100, 512, 0] (by decide),
   (hysteresis_latch KEY_LEFTCTRL).2.2.1 [256, 512, 300] (by decide),
   (hysteresis_latch KEY_LEFTCTRL).2.2.2.1 100 (by decide),
   ((hysteresis_latch KEY_LEFTCTRL).2.2.2.2 false 600).1 (by decide)⟩

/-! ### Claim C6: two-key button routes -/

/-- C6: for every input button code that routes to two output key codes, a
single input event emits both output key events with the input event's own
value, followed by exactly one batch-boundary marker. -/
theorem button_two_key (code : Nat) (value : Int) (k1 k2 : Nat)
    (h : route code = [k1, k2]) :
    buttonStep code value = [.key k1 value, .key k2 value, .syn] ∧
    countSyn (buttonStep code value) = 1 := by
  unfold buttonStep
  rw [h]
  exact ⟨rfl, rfl⟩

/-- Concrete instantiation of `button_two_key` at the chorded shortcut
BTN_START → {KEY_LEFTMETA, KEY_A}. -/
theorem button_two_key_witness :
    buttonStep BTN_START 1 = [.key KEY_LEFTMETA 1, .key KEY_A 1, .syn] ∧
    countSyn (buttonStep BTN_START 1) = 1 :=
  button_two_key BTN_START 1 KEY_LEFTMETA KEY_A (by decide)

/-! ### Claim C9: every key event yields exactly one batch marker -/

/-- C9: every EV_KEY input event produces exactly one batch-boundary
marker on the output, including events whose button code has no routing
entry — those produce a marker preceded by no key events (an empty
batch). -/
theorem button_one_syn (code : Nat) (value : Int) :
    countSyn (buttonStep code value) = 1 ∧
    (route code = [] → buttonStep code value = [.syn]) := by
  constructor
  · unfold buttonStep countSyn
    rw [List.countP_append]
    have h0 : ((route code).map fun k => OutEv.key k value).countP
        (fun e => match e with | .syn => true | _ => false) = 0 := by
      induction route code with
      | nil => rfl
      | cons a l ih => simp [List.countP_cons, ih]
    rw [h0]
    rfl
  · intro h
    unfold buttonStep
    rw [h]
    rfl

/-- Concrete instantiation of `button_one_syn` at the unrouted button
code 999: the output is a bare batch marker. -/
theorem button_one_syn_witness :
    countSyn (buttonStep 999 1) = 1 ∧ buttonStep 999 1 = [.syn] :=
  ⟨(button_one_syn 999 1).1, (button_one_syn 999 1).2 (by decide)⟩

/-! ### Claims C7 and C8: properties of the acceleration formula -/

/-- Truncation toward zero is an odd function. -/
theorem qtrunc_neg (q : ℚ) : qtrunc (-q) = -qtrunc q := by
  unfold qtrunc
  rcases lt_trichotomy q 0 with h | h | h
  · rw [if_pos (le_of_lt (neg_pos.mpr h)), if_neg (not_le.mpr h), neg_neg]
  · subst h
    simp
  · rw [if_neg (by linarith), if_pos h.le, neg_neg]

/-- Truncation toward zero preserves nonnegativity. -/
theorem qtrunc_nonneg (q : ℚ) (h : 0 ≤ q) : 0 ≤ qtrunc q := by
  unfold qtrunc
  rw [if_pos h]
  exact Int.le_floor.mpr (by exact_mod_cast h)

/-- Truncation toward zero is monotone on nonnegative rationals. -/
theorem qtrunc_mono_nonneg (a b : ℚ) (ha : 0 ≤ a) (hab : a ≤ b) :
    qtrunc a ≤ qtrunc b := by
  unfold qtrunc
  rw [if_pos ha, if_pos (ha.trans hab)]
  exact Int.floor_le_floor hab

/-- C truncating division by a positive divisor is monotone on
nonnegative numerators. -/
theorem tdiv_le_tdiv (a b c : Int) (ha : 0 ≤ a) (hab : a ≤ b) (hc : 0 < c) :
    a.tdiv c ≤ b.tdiv c := by
  rw [Int.tdiv_eq_ediv ha hc.le, Int.tdiv_eq_ediv (ha.trans hab) hc.le]
  exact Int.ediv_le_ediv hc hab

/-- The acceleration formula is odd in the raw value, for any
parameterization. -/
theorem axisAccel_neg (base : ℚ) (d1 sub d2 mul : Int) (v dt : Int) :
    axisAccel base d1 sub d2 mul (-v) dt = -axisAccel base d1 sub d2 mul v dt := by
  unfold axisAccel
  rw [abs_neg, Int.cast_neg, mul_neg, qtrunc_neg, neg_mul, Int.neg_tdiv, neg_mul]

/-- C7: the accelerator is an odd function of the raw axis value, for
each of the two per-stick parameterizations. -/
theorem axisAccel_odd (v dt : Int) :
    laccel (-v) dt = -laccel v dt ∧ raccel (-v) dt = -raccel v dt := by
  unfold laccel raccel
  exact ⟨axisAccel_neg _ _ _ _ _ v dt, axisAccel_neg _ _ _ _ _ v dt⟩

/-- With a positive base, nonnegative raw value and nonnegative elapsed
time, the acceleration formula is nonnegative. -/
theorem axisAccel_nonneg (base : ℚ) (d1 sub d2 mul : Int)
    (hbase : 0 < base) (hd2 : 0 ≤ d2) (hmul : 0 ≤ mul) (v dt : Int)
    (hv : 0 ≤ v) (hdt : 0 ≤ dt) : 0 ≤ axisAccel base d1 sub d2 mul v dt := by
  unfold axisAccel
  have hq : (0 : ℚ) ≤ base ^ Int.tdiv (|v| - sub) d1 * (v : ℚ) :=
    mul_nonneg (zpow_pos hbase _).le (by exact_mod_cast hv)
  exact mul_nonneg (Int.tdiv_nonneg (mul_nonneg (qtrunc_nonneg _ hq) hdt) hd2) hmul

/-- For a fixed nonnegative raw value the acceleration formula is
monotone in the elapsed time. -/
theorem axisAccel_dt_mono (base : ℚ) (d1 sub d2 mul : Int)
    (hbase : 0 < base) (hd2 : 0 < d2) (hmul : 0 ≤ mul) (v dt1 dt2 : Int)
    (hv : 0 ≤ v) (h1 : 0 ≤ dt1) (h12 : dt1 ≤ dt2) :
    axisAccel base d1 sub d2 mul v dt1 ≤ axisAccel base d1 sub d2 mul v dt2 := by
  unfold axisAccel
  have ha : 0 ≤ qtrunc (base ^ Int.tdiv (|v| - sub) d1 * (v : ℚ)) :=
    qtrunc_nonneg _ (mul_nonneg (zpow_pos hbase _).le (by exact_mod_cast hv))
  exact mul_le_mul_of_nonneg_right
    (tdiv_le_tdiv _ _ _ (mul_nonneg ha h1) (mul_le_mul_of_nonneg_left h12 ha) hd2)
    hmul

/-- For a fixed nonnegative elapsed time the acceleration formula is
monotone in the raw value above the dead-zone bound `sub`, for any base
at least 1. -/
theorem axisAccel_v_mono (base : ℚ) (d1 sub d2 mul : Int)
    (hbase : 1 ≤ base) (hd1 : 0 < d1) (hd2 : 0 < d2) (hmul : 0 ≤ mul)
    (hsub : 0 ≤ sub) (v1 v2 dt : Int) (hv1 : sub ≤ v1) (hv : v1 ≤ v2)
    (hdt : 0 ≤ dt) :
    axisAccel base d1 sub d2 mul v1 dt ≤ axisAccel base d1 sub d2 mul v2 dt := by
  unfold axisAccel
  have hb0 : (0 : ℚ) < base := lt_of_lt_of_le one_pos hbase
  have hv1n : 0 ≤ v1 := hsub.trans hv1
  rw [abs_of_nonneg hv1n, abs_of_nonneg (hv1n.trans hv)]
  have he : Int.tdiv (v1 - sub) d1 ≤ Int.tdiv (v2 - sub) d1 :=
    tdiv_le_tdiv _ _ _ (by omega) (by omega) hd1
  have hc1 : (0 : ℚ) ≤ (v1 : ℚ) := by exact_mod_cast hv1n
  have hq1 : (0 : ℚ) ≤ base ^ Int.tdiv (v1 - sub) d1 * (v1 : ℚ) :=
    mul_nonneg (zpow_pos hb0 _).le hc1
  have hmm : base ^ Int.tdiv (v1 - sub) d1 * (v1 : ℚ) ≤
      base ^ Int.tdiv (v2 - sub) d1 * (v2 : ℚ) :=
    mul_le_mul (zpow_le_zpow_right₀ hbase he) (by exact_mod_cast hv) hc1
      (zpow_pos hb0 _).le
  have ha0 : 0 ≤ qtrunc (base ^ Int.tdiv (v1 - sub) d1 * (v1 : ℚ)) :=
    qtrunc_nonneg _ hq1
  exact mul_le_mul_of_nonneg_right
    (tdiv_le_tdiv _ _ _ (mul_nonneg ha0 hdt)
      (mul_le_mul_of_nonneg_right (qtrunc_mono_nonneg _ _ hq1 hmm) hdt) hd2)
    hmul

/-- C8: the output magnitude of the accelerator is monotonically
non-decreasing in the elapsed time `dt` for any fixed raw value `v > 0`,
and monotonically non-decreasing in `v` for any fixed `dt > 0` when `v`
lies beyond the dead-zone bound `2^13`, under each of the two per-stick
parameterizations. -/
theorem axisAccel_monotone :
    (∀ v dt1 dt2 : Int, 0 < v → 0 ≤ dt1 → dt1 ≤ dt2 →
      |laccel v dt1| ≤ |laccel v dt2| ∧ |raccel v dt1| ≤ |raccel v dt2|) ∧
    (∀ v1 v2 dt : Int, 2 ^ 13 < v1 → v1 ≤ v2 → 0 < dt →
      |laccel v1 dt| ≤ |laccel v2 dt| ∧ |raccel v1 dt| ≤ |raccel v2 dt|) := by
  have hb0 : (0 : ℚ) < 101 / 100 := by norm_num
  have hb1 : (1 : ℚ) ≤ 101 / 100 := by norm_num
  constructor
  · intro v dt1 dt2 hv h1 h12
    unfold laccel raccel
    constructor
    · rw [abs_of_nonneg (axisAccel_nonneg _ _ _ _ _ hb0 (by norm_num) (by norm_num)
            v dt1 hv.le h1),
          abs_of_nonneg (axisAccel_nonneg _ _ _ _ _ hb0 (by norm_num) (by norm_num)
            v dt2 hv.le (h1.trans h12))]
      exact axisAccel_dt_mono _ _ _ _ _ hb0 (by norm_num) (by norm_num) v dt1 dt2
        hv.le h1 h12
    · rw [abs_of_nonneg (axisAccel_nonneg _ _ _ _ _ hb0 (by norm_num) (by norm_num)
            v dt1 hv.le h1),
          abs_of_nonneg (axisAccel_nonneg _ _ _ _ _ hb0 (by norm_num) (by norm_num)
            v dt2 hv.le (h1.trans h12))]
      exact axisAccel_dt_mono _ _ _ _ _ hb0 (by norm_num) (by norm_num) v dt1 dt2
        hv.le h1 h12
  · intro v1 v2 dt hv1 hv hdt
    have hv1n : (0 : ℤ) ≤ v1 := le_trans (by norm_num) hv1.le
    unfold laccel raccel
    constructor
    · rw [abs_of_nonneg (axisAccel_nonneg _ _ _ _ _ hb0 (by norm_num) (by norm_num)
            v1 dt hv1n hdt.le),
          abs_of_nonneg (axisAccel_nonneg _ _ _ _ _ hb0 (by norm_num) (by norm_num)
            v2 dt (hv1n.trans hv) hdt.le)]
      exact axisAccel_v_mono _ _ _ _ _ hb1 (by norm_num) (by norm_num) (by norm_num)
        (by norm_num) v1 v2 dt hv1.le hv hdt.le
    · rw [abs_of_nonneg (axisAccel_nonneg _ _ _ _ _ hb0 (by norm_num) (by norm_num)
            v1 dt hv1n hdt.le),
          abs_of_nonneg (axisAccel_nonneg _ _ _ _ _ hb0 (by norm_num) (by norm_num)
            v2 dt (hv1n.trans hv) hdt.le)]
      exact axisAccel_v_mono _ _ _ _ _ hb1 (by norm_num) (by norm_num) (by norm_num)
        (by norm_num) v1 v2 dt hv1.le hv hdt.le

/-- Concrete instantiation of `axisAccel_monotone` at raw value 20000 for
the time part and at raw values 8200 ≤ 9000 for the value part. -/
theorem axisAccel_monotone_witness :
    (|laccel 20000 100| ≤ |laccel 20000 200| ∧ |raccel 20000 100| ≤ |raccel 20000 200|) ∧
    (|laccel 8200 50| ≤ |laccel 9000 50| ∧ |raccel 8200 50| ≤ |raccel 9000 50|) :=
  ⟨axisAccel_monotone.1 20000 100 200 (by norm_num) (by norm_num) (by norm_num),
   axisAccel_monotone.2 8200 9000 50 (by norm_num) (by norm_num) (by norm_num)⟩

end Joy2KeyMouse
